import Mathlib

/-!
Verification of the aws-lambda-fsm-workflows core against its specification.

The repository sources available are `aws_lambda_fsm/client.py`,
`aws_lambda_fsm/constants.py` and `tests/aws_lambda_fsm/test_aws.py`.
The module `aws_lambda_fsm/aws.py` (leases, chaos wrapper, ARN parsing,
idempotency cache) is not available; those operations are modelled from the
specification, with every behavioural detail cross-checked against the
repository's own unit tests in `tests/aws_lambda_fsm/test_aws.py`.
-/

namespace AwsLambdaFsm

/-- From src/aws_lambda_fsm/constants.py, class LEASE_DATA: `LEASE_TIMEOUT = 60`.
Note the repository's own tests (test_aws.py, LeaseMemcacheTest and
LeaseDynamodbTest) assert lease expiry stamps computed with a timeout of 300. -/
def LEASE_TIMEOUT : Nat := 60

/-- From src/aws_lambda_fsm/constants.py, class LEASE_DATA: the states of a
lease record are the strings `leased` and `open`. -/
def LEASE_STATE_LEASED : String := "leased"

/-- From src/aws_lambda_fsm/constants.py, class LEASE_DATA. -/
def LEASE_STATE_OPEN : String := "open"

/-- Parsed form of the cache-dialect lease value `"steps-retries-expires"`
(spec 4.7, cache dialect; test_aws.py LeaseMemcacheTest feeds values such as
`99-99-999999999`).  The dash-separated decimal encoding is injective, so the
model carries the parsed triple. -/
structure CacheLease where
  steps : Nat
  retries : Nat
  expires : Nat
deriving DecidableEq, Repr

/-- Outcome of a memcache compare-and-set, as seen by the lease code:
`python-memcache` `cas` returns `True` on success, `False` on a CAS miss and
`0` on a connection error (test_aws.py sets `cas.return_value` to each). -/
inductive CasResult where
  | ok
  | lost
  | connError
deriving DecidableEq, Repr

/-- Return value of the cache-dialect lease calls: `True`, `False`, or the
distinguished connection-error sentinel `0` (spec 4.7). -/
inductive LeaseCallResult where
  | success
  | failure
  | connError
deriving DecidableEq, Repr

/-- One cache-dialect lease call: the returned value, whether a `cas` write
was attempted, and the value and TTL handed to `cas` when it was. -/
structure CacheLeaseStep where
  result : LeaseCallResult
  casAttempted : Bool
  written : Option CacheLease
  ttl : Nat
deriving DecidableEq, Repr

/-- Modelled from the spec (4.7): a cache-dialect lease is available iff the
key does not exist, or it has expired (`expires < now`), or it is already
owned by the same `(steps, retries)` tuple.  (The cache dialect stores no
`open`/`leased` state field; an open lease is an absent or expired entry.)
Cross-checked against test_aws.py LeaseMemcacheTest: value `None` wins,
`99-99-0` at `now=999` wins, `99-99-999999999` for owner `(1,1)` falls
through without a `cas`, `99-99-99` for owner `(99,99)` wins. -/
def cache_lease_available (cur : Option CacheLease) (steps retries now : Nat) : Bool :=
  match cur with
  | none => true
  | some l => decide (l.expires < now) || (decide (l.steps = steps) && decide (l.retries = retries))

/-- Modelled from the spec (4.7, cache dialect): `acquire_lease` over
memcache.  Read the current value with `gets`; when the lease is available,
`cas` back `"steps-retries-(now + timeout)"` with a TTL of `timeout` and
return the `cas` outcome; when it is held unexpired by a different owner,
return `False` without attempting the write.  `timeout` is the
`LEASE_TIMEOUT` constant; `cas` is the backend's reply. -/
def acquire_lease_cache (cur : Option CacheLease) (steps retries now timeout : Nat)
    (cas : CasResult) : CacheLeaseStep :=
  if cache_lease_available cur steps retries now then
    { result :=
        match cas with
        | .ok => .success
        | .lost => .failure
        | .connError => .connError
      casAttempted := true
      written := some ⟨steps, retries, now + timeout⟩
      ttl := timeout }
  else
    { result := .failure, casAttempted := false, written := none, ttl := 0 }

/-- Modelled from the spec (4.7, cache dialect): `release_lease` over
memcache.  Read the current value; release only when the record is owned by
the same `(steps, retries)`; on success `cas` the value `None` with a
1-second TTL so stale entries self-collect.  The `fence` argument is carried
by the call but the cache dialect stores no fence, so it is not inspected
(test_aws.py test_release_lease_memcache_owned_self_wins releases with the
opaque fence `f` against the stored value `99-99-99`). -/
def release_lease_cache (cur : Option CacheLease) (steps retries : Nat) (fence : Nat)
    (cas : CasResult) : CacheLeaseStep :=
  match cur with
  | none => { result := .failure, casAttempted := false, written := none, ttl := 0 }
  | some l =>
    if l.steps = steps ∧ l.retries = retries then
      { result :=
          match cas with
          | .ok => .success
          | .lost => .failure
          | .connError => .connError
        casAttempted := true
        written := none
        ttl := 1 }
    else
      { result := .failure, casAttempted := false, written := none, ttl := 0 }

/-- A DynamoDB lease item for one `ckey` (spec 4.7, document-store dialect;
test_aws.py LeaseDynamodbTest).  Each attribute is optional: a wholly absent
item is the record with every attribute `none`. -/
structure DdbLease where
  lease_state : Option String
  fence : Option Nat
  expires : Option Int
  steps : Option Nat
  retries : Option Nat
deriving DecidableEq, Repr

/-- The DynamoDB item of a key never written. -/
def DdbLease.absent : DdbLease := ⟨none, none, none, none, none⟩

/-- Modelled from the spec (4.7, document-store dialect): the acquire
condition expression
`attribute_not_exists(lease_state) OR lease_state = :o OR expires < :t OR
(lease_state = :l AND steps = :s AND retries = :r)`
(verbatim in test_aws.py test_aquire_lease_dynamodb_available).  A comparison
against an absent attribute is false under DynamoDB semantics. -/
def ddb_lease_available (rec : DdbLease) (steps retries : Nat) (now : Int) : Bool :=
  rec.lease_state.isNone
  || decide (rec.lease_state = some LEASE_STATE_OPEN)
  || (match rec.expires with
      | some e => decide (e < now)
      | none => false)
  || (decide (rec.lease_state = some LEASE_STATE_LEASED)
      && decide (rec.steps = some steps) && decide (rec.retries = some retries))

/-- Result of a document-store `acquire_lease`: the fence attribute of the
updated item on success, `False` on a conditional-check failure. -/
inductive DdbAcquireResult where
  | acquired (fence : Nat)
  | contended
deriving DecidableEq, Repr

/-- Modelled from the spec (4.7, document-store dialect): `acquire_lease` is a
single conditional update
`SET fence = if_not_exists(fence, :z) + :f, expires = :e, lease_state = :l,
steps = :s, retries = :r`
with `:z = 0`, `:f = 1`, `:e = now + timeout`, guarded by
`ddb_lease_available`; the returned fence attribute (`ReturnValues=ALL_NEW`)
is the authoritative monotonic token.  A `ConditionalCheckFailedException`
leaves the item unchanged and the call returns `False`. -/
def acquire_lease_ddb (rec : DdbLease) (steps retries : Nat) (now : Int) (timeout : Nat) :
    DdbAcquireResult × DdbLease :=
  if ddb_lease_available rec steps retries now then
    let f := rec.fence.getD 0 + 1
    (.acquired f,
     { lease_state := some LEASE_STATE_LEASED
       fence := some f
       expires := some (now + timeout)
       steps := some steps
       retries := some retries })
  else
    (.contended, rec)

/-- Modelled from the spec (4.7, document-store dialect): `release_lease` is
the conditional update
`SET lease_state = :o, steps = :null, retries = :null, expires = :null`
guarded by `lease_state = :l AND steps = :s AND retries = :r AND fence = :f`
(verbatim in test_aws.py test_release_lease_dynamodb_available).  The fence
attribute itself is not touched by the update expression. -/
def release_lease_ddb (rec : DdbLease) (steps retries fence : Nat) : Bool × DdbLease :=
  if rec.lease_state = some LEASE_STATE_LEASED ∧ rec.steps = some steps
      ∧ rec.retries = some retries ∧ rec.fence = some fence then
    (true,
     { lease_state := some LEASE_STATE_OPEN
       fence := rec.fence
       expires := none
       steps := none
       retries := none })
  else
    (false, rec)

/-- A lease operation against one correlation id's DynamoDB item. -/
inductive LeaseOp where
  | acquire (steps retries : Nat) (now : Int)
  | release (steps retries fence : Nat)
deriving DecidableEq, Repr

/-- The numeric value of the fence attribute (`if_not_exists(fence, 0)`). -/
def fenceVal (rec : DdbLease) : Nat := rec.fence.getD 0

/-- Apply one lease operation; the first component is the fence returned to
the caller when the operation was a successful acquire. -/
def ddbApply (rec : DdbLease) : LeaseOp → Option Nat × DdbLease
  | .acquire s r now =>
    match acquire_lease_ddb rec s r now LEASE_TIMEOUT with
    | (.acquired f, rec2) => (some f, rec2)
    | (.contended, rec2) => (none, rec2)
  | .release s r f => (none, (release_lease_ddb rec s r f).2)

/-- The fences returned along a sequence of lease operations; `none` marks an
operation that did not successfully acquire. -/
def ddbTrace (rec : DdbLease) : List LeaseOp → List (Option Nat)
  | [] => []
  | op :: ops =>
    (ddbApply rec op).1 :: ddbTrace (ddbApply rec op).2 ops

/-- The item after running a sequence of lease operations. -/
def ddbRun (rec : DdbLease) : List LeaseOp → DdbLease
  | [] => rec
  | op :: ops => ddbRun (ddbApply rec op).2 ops

theorem ddbApply_fence_mono (rec : DdbLease) (op : LeaseOp) :
    fenceVal rec ≤ fenceVal (ddbApply rec op).2 := by
  cases op with
  | acquire s r now =>
    simp only [ddbApply, acquire_lease_ddb]
    by_cases h : ddb_lease_available rec s r now = true
    · simp [h, fenceVal]
    · simp [h]
  | release s r f =>
    simp only [ddbApply, release_lease_ddb]
    by_cases h : rec.lease_state = some LEASE_STATE_LEASED ∧ rec.steps = some s
        ∧ rec.retries = some r ∧ rec.fence = some f
    · simp [h, fenceVal]
    · simp [h]

theorem ddbApply_acquired {rec : DdbLease} {op : LeaseOp} {f : Nat}
    (h : (ddbApply rec op).1 = some f) :
    f = fenceVal rec + 1 ∧ fenceVal (ddbApply rec op).2 = f := by
  cases op with
  | acquire s r now =>
    simp only [ddbApply, acquire_lease_ddb] at h ⊢
    by_cases hav : ddb_lease_available rec s r now = true
    · simp [hav] at h ⊢
      simp [← h, fenceVal]
    · simp [hav] at h
  | release s r f0 =>
    simp [ddbApply] at h

theorem ddbRun_fence_mono (rec : DdbLease) (ops : List LeaseOp) :
    fenceVal rec ≤ fenceVal (ddbRun rec ops) := by
  induction ops generalizing rec with
  | nil => simp [ddbRun]
  | cons op ops ih =>
    calc fenceVal rec ≤ fenceVal (ddbApply rec op).2 := ddbApply_fence_mono rec op
    _ ≤ fenceVal (ddbRun (ddbApply rec op).2 ops) := ih _
    _ = fenceVal (ddbRun rec (op :: ops)) := rfl

theorem ddbTrace_gt_fence {rec : DdbLease} {ops : List LeaseOp} {j : Nat} {f : Nat}
    (h : (ddbTrace rec ops).get? j = some (some f)) :
    fenceVal rec < f := by
  induction ops generalizing rec j with
  | nil => simp [ddbTrace] at h
  | cons op ops ih =>
    cases j with
    | zero =>
      simp [ddbTrace] at h
      obtain ⟨hf, _⟩ := ddbApply_acquired h
      omega
    | succ j =>
      simp only [ddbTrace, List.get?] at h
      have h2 := ih h
      have h1 := ddbApply_fence_mono rec op
      omega

/-- C1: for every pair of successful `acquire_lease` calls on the same
correlation id in the document-store dialect, the fence returned by the later
acquire is strictly greater than the fence returned by the earlier one, and
the fence attribute of the item never decreases across any sequence of
acquire and release operations. -/
theorem C1_fences_strictly_increase (rec : DdbLease) (ops : List LeaseOp)
    (i j : Nat) (f1 f2 : Nat) (hij : i < j)
    (hi : (ddbTrace rec ops).get? i = some (some f1))
    (hj : (ddbTrace rec ops).get? j = some (some f2)) :
    f1 < f2 ∧ fenceVal rec ≤ fenceVal (ddbRun rec ops) := by
  refine ⟨?_, ddbRun_fence_mono rec ops⟩
  induction ops generalizing rec i j with
  | nil => simp [ddbTrace] at hi
  | cons op ops ih =>
    cases i with
    | zero =>
      simp [ddbTrace] at hi
      obtain ⟨_, hval⟩ := ddbApply_acquired hi
      cases j with
      | zero => omega
      | succ j =>
        simp only [ddbTrace, List.get?] at hj
        have := ddbTrace_gt_fence hj
        omega
    | succ i =>
      cases j with
      | zero => omega
      | succ j =>
        simp only [ddbTrace, List.get?] at hi hj
        exact ih _ i j (by omega) hi hj

/-- Witness for C1 at a concrete run: starting from an absent item, two
successive acquires by the same owner return fences 1 and 2. -/
theorem C1_fences_strictly_increase_witness :
    (ddbTrace DdbLease.absent [.acquire 1 1 999, .acquire 1 1 999]).get? 0 = some (some 1)
    ∧ (ddbTrace DdbLease.absent [.acquire 1 1 999, .acquire 1 1 999]).get? 1 = some (some 2)
    ∧ (1 : Nat) < 2 := by
  refine ⟨by decide, by decide, ?_⟩
  exact (C1_fences_strictly_increase DdbLease.absent
    [.acquire 1 1 999, .acquire 1 1 999] 0 1 1 2 (by decide) (by decide) (by decide)).1

theorem cache_lease_available_iff (cur : Option CacheLease) (steps retries now : Nat) :
    cache_lease_available cur steps retries now = true ↔
      (cur = none ∨ (∃ l, cur = some l ∧ l.expires < now)
        ∨ (∃ l, cur = some l ∧ l.steps = steps ∧ l.retries = retries)) := by
  cases cur with
  | none => simp [cache_lease_available]
  | some l =>
    simp [cache_lease_available]

theorem acquire_cache_attempted (cur : Option CacheLease) (steps retries now timeout : Nat)
    (cas : CasResult) :
    (acquire_lease_cache cur steps retries now timeout cas).casAttempted =
      cache_lease_available cur steps retries now := by
  cases hav : cache_lease_available cur steps retries now <;>
    simp [acquire_lease_cache, hav]

theorem expires_lt_iff (o : Option Int) (now : Int) :
    (match o with
      | some e => decide (e < now)
      | none => false) = true ↔ ∃ e, o = some e ∧ e < now := by
  cases o <;> simp

theorem ddb_lease_available_iff (rec : DdbLease) (steps retries : Nat) (now : Int) :
    ddb_lease_available rec steps retries now = true ↔
      (rec.lease_state = none ∨ rec.lease_state = some LEASE_STATE_OPEN
        ∨ (∃ e, rec.expires = some e ∧ e < now)
        ∨ (rec.lease_state = some LEASE_STATE_LEASED ∧ rec.steps = some steps
            ∧ rec.retries = some retries)) := by
  simp only [ddb_lease_available, Bool.or_eq_true, Bool.and_eq_true, decide_eq_true_eq,
    Option.isNone_iff_eq_none, expires_lt_iff]
  rw [or_assoc, or_assoc, and_assoc]

/-- C2: in the cache dialect the `cas` write is attempted exactly when the
lease is available (key absent, expired, or already owned by the same
`(steps, retries)`); a held unexpired lease of a different owner and a lost
compare-and-set both return `False`, a backend I/O failure returns the
distinguished sentinel `0`, and the two outcomes are never confused.  In the
document-store dialect the conditional write succeeds exactly on the
availability condition of the claim (absent key, `open` state, `expires <
now`, or same-owner re-acquire). -/
theorem C2_acquire_error_contract (cur : Option CacheLease) (steps retries now timeout : Nat)
    (cas : CasResult) (rec : DdbLease) (dsteps dretries : Nat) (dnow : Int) :
    ((acquire_lease_cache cur steps retries now timeout cas).casAttempted = true ↔
      (cur = none ∨ (∃ l, cur = some l ∧ l.expires < now)
        ∨ (∃ l, cur = some l ∧ l.steps = steps ∧ l.retries = retries)))
    ∧ (∀ l, cur = some l → ¬ l.expires < now → ¬ (l.steps = steps ∧ l.retries = retries) →
        (acquire_lease_cache cur steps retries now timeout cas).result = .failure
          ∧ (acquire_lease_cache cur steps retries now timeout cas).casAttempted = false)
    ∧ (cas = .lost →
        (acquire_lease_cache cur steps retries now timeout cas).casAttempted = true →
        (acquire_lease_cache cur steps retries now timeout cas).result = .failure)
    ∧ (cas = .connError →
        (acquire_lease_cache cur steps retries now timeout cas).casAttempted = true →
        (acquire_lease_cache cur steps retries now timeout cas).result = .connError)
    ∧ LeaseCallResult.failure ≠ LeaseCallResult.connError
    ∧ (ddb_lease_available rec dsteps dretries dnow = true ↔
        (rec.lease_state = none ∨ rec.lease_state = some LEASE_STATE_OPEN
          ∨ (∃ e, rec.expires = some e ∧ e < dnow)
          ∨ (rec.lease_state = some LEASE_STATE_LEASED ∧ rec.steps = some dsteps
              ∧ rec.retries = some dretries)))
    ∧ ((acquire_lease_ddb rec dsteps dretries dnow timeout).1 = .contended ↔
        ddb_lease_available rec dsteps dretries dnow = false) := by
  refine ⟨?_, ?_, ?_, ?_, by simp, ?_, ?_⟩
  · rw [acquire_cache_attempted, cache_lease_available_iff]
  · intro l hl h1 h2
    subst hl
    have hav : cache_lease_available (some l) steps retries now = false := by
      cases hb : cache_lease_available (some l) steps retries now
      · rfl
      · exfalso
        rcases (cache_lease_available_iff (some l) steps retries now).1 hb with
          h | ⟨l2, hl2, hlt⟩ | ⟨l2, hl2, hs, hr⟩
        · exact Option.noConfusion h
        · injection hl2 with hl2
          subst hl2
          exact h1 hlt
        · injection hl2 with hl2
          subst hl2
          exact h2 ⟨hs, hr⟩
    simp [acquire_lease_cache, hav]
  · intro hc hatt
    subst hc
    cases hav : cache_lease_available cur steps retries now
    · simp [acquire_lease_cache, hav] at hatt
    · simp [acquire_lease_cache, hav]
  · intro hc hatt
    subst hc
    cases hav : cache_lease_available cur steps retries now
    · simp [acquire_lease_cache, hav] at hatt
    · simp [acquire_lease_cache, hav]
  · exact ddb_lease_available_iff rec dsteps dretries dnow
  · cases hav : ddb_lease_available rec dsteps dretries dnow <;>
      simp [acquire_lease_ddb, hav]

/-- Witness for C2 at concrete inputs: a lease held unexpired by a different
owner falls through with `False` and no write (test
test_aquire_lease_memcache_leased_fall_through), and a connection error on an
available lease returns the sentinel (test test_aquire_lease_memcache_failure). -/
theorem C2_acquire_error_contract_witness :
    (acquire_lease_cache (some ⟨99, 99, 999999999⟩) 1 1 999 300 .ok).result = .failure
    ∧ (acquire_lease_cache (some ⟨99, 99, 999999999⟩) 1 1 999 300 .ok).casAttempted = false := by
  have h := (C2_acquire_error_contract (some ⟨99, 99, 999999999⟩) 1 1 999 300 .ok
    DdbLease.absent 1 1 999).2.1 ⟨99, 99, 999999999⟩ rfl (by decide) (by decide)
  exact h

/-- C3 counterexample: in the cache dialect the presented fence is not
compared against anything.  From the stored value `99-99-99`, a release by
owner `(99, 99)` succeeds both with fence 0 and with fence 1 — two different
fences — so release does not require "the same fence the caller presents",
and on success the record is overwritten with `None` (1-second TTL) rather
than transitioned to an `open` state.  This is the repository's own test
test_release_lease_memcache_owned_self_wins, which releases with the opaque
fence string `f`. -/
theorem C3_counterexample :
    (release_lease_cache (some ⟨99, 99, 99⟩) 99 99 0 .ok).result = .success
    ∧ (release_lease_cache (some ⟨99, 99, 99⟩) 99 99 1 .ok).result = .success
    ∧ (0 : Nat) ≠ 1
    ∧ (release_lease_cache (some ⟨99, 99, 99⟩) 99 99 0 .ok).written = none
    ∧ (release_lease_cache (some ⟨99, 99, 99⟩) 99 99 0 .ok).ttl = 1 := by
  decide

/-- C3 (amended): in the document-store dialect, `release_lease` succeeds
exactly when the stored item is leased by the same `(steps, retries)` with
the same fence the caller presents, and on success the state becomes `open`
and `expires`, `steps` and `retries` are cleared (the fence attribute is
kept).  In the cache dialect the presented fence is ignored: release
requires only that the stored value is owned by the same `(steps, retries)`
(returning `False` otherwise, without a write), and on success the entry is
overwritten with `None` under a 1-second TTL rather than marked `open`. -/
theorem C3_release_contract (rec : DdbLease) (steps retries fence : Nat)
    (cur : Option CacheLease) (csteps cretries cfence : Nat) (cas : CasResult) :
    ((release_lease_ddb rec steps retries fence).1 = true ↔
      (rec.lease_state = some LEASE_STATE_LEASED ∧ rec.steps = some steps
        ∧ rec.retries = some retries ∧ rec.fence = some fence))
    ∧ ((release_lease_ddb rec steps retries fence).1 = true →
        (release_lease_ddb rec steps retries fence).2 =
          { lease_state := some LEASE_STATE_OPEN, fence := rec.fence,
            expires := none, steps := none, retries := none })
    ∧ ((release_lease_cache cur csteps cretries cfence cas).casAttempted = true ↔
        (∃ l, cur = some l ∧ l.steps = csteps ∧ l.retries = cretries))
    ∧ ((release_lease_cache cur csteps cretries cfence cas).result = .success →
        cas = .ok ∧ ∃ l, cur = some l ∧ l.steps = csteps ∧ l.retries = cretries)
    ∧ ((release_lease_cache cur csteps cretries cfence cas).casAttempted = true →
        (release_lease_cache cur csteps cretries cfence cas).written = none
          ∧ (release_lease_cache cur csteps cretries cfence cas).ttl = 1)
    ∧ (release_lease_cache cur csteps cretries cfence cas
        = release_lease_cache cur csteps cretries (cfence + 1) cas) := by
  refine ⟨?_, ?_, ?_, ?_, ?_, ?_⟩
  · by_cases h : rec.lease_state = some LEASE_STATE_LEASED ∧ rec.steps = some steps
        ∧ rec.retries = some retries ∧ rec.fence = some fence
    · simp [release_lease_ddb, h]
    · simp [release_lease_ddb, h]
  · intro h
    by_cases hc : rec.lease_state = some LEASE_STATE_LEASED ∧ rec.steps = some steps
        ∧ rec.retries = some retries ∧ rec.fence = some fence
    · simp [release_lease_ddb, hc]
    · simp [release_lease_ddb, hc] at h
  · cases cur with
    | none => simp [release_lease_cache]
    | some l =>
      by_cases h : l.steps = csteps ∧ l.retries = cretries
      · simp [release_lease_cache, h]
      · simp [release_lease_cache, h]
  · cases cur with
    | none => simp [release_lease_cache]
    | some l =>
      by_cases h : l.steps = csteps ∧ l.retries = cretries
      · cases cas <;> simp [release_lease_cache, h]
      · simp [release_lease_cache, h]
  · cases cur with
    | none => simp [release_lease_cache]
    | some l =>
      by_cases h : l.steps = csteps ∧ l.retries = cretries
      · simp [release_lease_cache, h]
      · simp [release_lease_cache, h]
  · cases cur with
    | none => simp [release_lease_cache]
    | some l =>
      by_cases h : l.steps = csteps ∧ l.retries = cretries
      · simp [release_lease_cache, h]
      · simp [release_lease_cache, h]

/-- Witness for C3 (amended) at a concrete input: a document-store release by
the holding owner with the matching fence succeeds, and the memcache release
by the owner attempts the clearing write. -/
theorem C3_release_contract_witness :
    (release_lease_ddb ⟨some LEASE_STATE_LEASED, some 5, some 1299, some 1, some 1⟩ 1 1 5).1 = true
    ∧ (release_lease_cache (some ⟨99, 99, 99⟩) 99 99 7 .ok).written = none := by
  constructor
  · exact (C3_release_contract ⟨some LEASE_STATE_LEASED, some 5, some 1299, some 1, some 1⟩
      1 1 5 (some ⟨99, 99, 99⟩) 99 99 7 .ok).1.2 (by decide)
  · exact ((C3_release_contract ⟨some LEASE_STATE_LEASED, some 5, some 1299, some 1, some 1⟩
      1 1 5 (some ⟨99, 99, 99⟩) 99 99 7 .ok).2.2.2.2.1 (by decide)).1

/-- C4: the claim matches the repository's tests but not its constants file.
With the `LEASE_TIMEOUT` of `constants.py` (60), a successful cache-dialect
acquire at `now = 999` stamps `expires = 1059` with a TTL of 60, while the
repository's own test test_aquire_lease_memcache_available_wins asserts
`cas('lease-a', '1-1-1299', time=300)`, i.e. `expires = now + 300`: the
constant contradicts the tests (and the spec's stated 300-second default).
The structural part of the claim holds: the stored record carries the owner
`(steps, retries)` and `expires = now + timeout`, and the document-store
dialect additionally stamps `lease_state = "leased"`. -/
theorem C4_lease_timeout_code_bug :
    LEASE_TIMEOUT = 60
    ∧ (acquire_lease_cache none 1 1 999 LEASE_TIMEOUT .ok).written = some ⟨1, 1, 1059⟩
    ∧ (acquire_lease_cache none 1 1 999 LEASE_TIMEOUT .ok).ttl = 60
    ∧ (acquire_lease_cache none 1 1 999 300 .ok).written = some ⟨1, 1, 1299⟩
    ∧ (acquire_lease_cache none 1 1 999 300 .ok).ttl = 300
    ∧ (1059 : Nat) ≠ 1299
    ∧ (acquire_lease_ddb DdbLease.absent 1 1 999 300).2 =
        { lease_state := some LEASE_STATE_LEASED, fence := some 1,
          expires := some 1299, steps := some 1, retries := some 1 } := by
  decide

/-- JSON values as produced by the kickoff API: strings, integers and objects
(an object is its association list in insertion order, as a Python dict). -/
inductive Json where
  | str : String → Json
  | num : Int → Json
  | obj : List (String × Json) → Json

/-- Opening brace character, `\x7b`. -/
def lbrace : String := String.singleton (Char.ofNat 123)

/-- Closing brace character, `\x7d`. -/
def rbrace : String := String.singleton (Char.ofNat 125)

/-- Double-quote a JSON string (escape handling is not needed by any claim). -/
def quoteJson (s : String) : String := "\"" ++ s ++ "\""

/-- Key order on rendered object fields: compare the keys. -/
def fieldLE (a b : String × String) : Prop := a.1 ≤ b.1

/-- Strict key order on rendered object fields. -/
def fieldLT (a b : String × String) : Prop := a.1 < b.1

instance : DecidableRel fieldLE := fun a b => inferInstanceAs (Decidable (a.1 ≤ b.1))

instance : IsTotal (String × String) fieldLE := ⟨fun a b => le_total a.1 b.1⟩

instance : IsTrans (String × String) fieldLE := ⟨fun _ _ _ h1 h2 => le_trans h1 h2⟩

instance : IsAntisymm (String × String) fieldLT :=
  ⟨fun _ _ h1 h2 => absurd h2 (lt_asymm h1)⟩

/-- Sort rendered fields by key (the `sort_keys=True` of `json.dumps`). -/
def sortFields (l : List (String × String)) : List (String × String) :=
  List.insertionSort fieldLE l

/-- Join rendered fields with the default `json.dumps` item separator. -/
def joinComma : List String → String
  | [] => ""
  | [s] => s
  | s :: rest => s ++ ", " ++ joinComma rest

/-- Render one `key: value` field with the default `json.dumps` separator. -/
def renderField (p : String × String) : String := quoteJson p.1 ++ ": " ++ p.2

mutual
/-- The canonical envelope encoder: `json.dumps(payload, sort_keys=True)`
with the default separators, as called in `client.py` by both
`start_state_machine` and `start_state_machines`. -/
def encodeJson : Json → String
  | .str s => quoteJson s
  | .num n => toString n
  | .obj fields => lbrace ++ joinComma ((sortFields (encodeFields fields)).map renderField) ++ rbrace

/-- Render each field's value, keeping its key. -/
def encodeFields : List (String × Json) → List (String × String)
  | [] => []
  | (k, v) :: rest => (k, encodeJson v) :: encodeFields rest
end

theorem encodeFields_eq_map (l : List (String × Json)) :
    encodeFields l = l.map (fun p => (p.1, encodeJson p.2)) := by
  induction l with
  | nil => rfl
  | cons p rest ih => rw [encodeFields.eq_def]; simp [ih]

theorem sortFields_perm (l : List (String × String)) : List.Perm (sortFields l) l :=
  List.perm_insertionSort fieldLE l

theorem sortFields_sorted (l : List (String × String)) :
    List.Sorted fieldLE (sortFields l) :=
  List.sorted_insertionSort fieldLE l

theorem sorted_strict_of_nodup_keys {l : List (String × String)}
    (hs : List.Sorted fieldLE l) (hnd : (l.map Prod.fst).Nodup) :
    List.Sorted fieldLT l := by
  have hne : l.Pairwise (fun a b : String × String => a.1 ≠ b.1) :=
    (List.pairwise_map.1 hnd)
  exact hs.imp₂ (fun _ _ h1 h2 => lt_of_le_of_ne h1 h2) hne

/-- Sorting by key is invariant under permutation when the keys are unique. -/
theorem sortFields_eq_of_perm {l1 l2 : List (String × String)}
    (hperm : List.Perm l1 l2) (hnd : (l1.map Prod.fst).Nodup) :
    sortFields l1 = sortFields l2 := by
  have hnd2 : (l2.map Prod.fst).Nodup := ((hperm.map Prod.fst).nodup_iff).1 hnd
  have hp : List.Perm (sortFields l1) (sortFields l2) :=
    ((sortFields_perm l1).trans hperm).trans (sortFields_perm l2).symm
  have hnds1 : ((sortFields l1).map Prod.fst).Nodup :=
    (((sortFields_perm l1).map Prod.fst).nodup_iff).2 hnd
  have hnds2 : ((sortFields l2).map Prod.fst).Nodup :=
    (((sortFields_perm l2).map Prod.fst).nodup_iff).2 hnd2
  exact List.eq_of_perm_of_sorted hp
    (sorted_strict_of_nodup_keys (sortFields_sorted l1) hnds1)
    (sorted_strict_of_nodup_keys (sortFields_sorted l2) hnds2)

/-- C6: the envelope encoder is canonical.  Two objects that contain the same
key/value pairs and differ only in key insertion order encode to
byte-identical JSON, because `encodeJson` (the single encoder called by both
the single and the bulk kickoff) sorts object keys. -/
theorem C6_canonical_encoding (l1 l2 : List (String × Json))
    (hperm : List.Perm l1 l2) (hnd : (l1.map Prod.fst).Nodup) :
    encodeJson (.obj l1) = encodeJson (.obj l2) := by
  simp only [encodeJson]
  have hpf : List.Perm (encodeFields l1) (encodeFields l2) := by
    rw [encodeFields_eq_map, encodeFields_eq_map]
    exact hperm.map _
  have hndf : ((encodeFields l1).map Prod.fst).Nodup := by
    rw [encodeFields_eq_map]
    simpa using hnd
  rw [sortFields_eq_of_perm hpf hndf]

/-- Witness for C6 at a concrete input: the two-field object with keys
reordered encodes identically. -/
theorem C6_canonical_encoding_witness :
    encodeJson (.obj [("b", Json.num 1), ("a", Json.str "x")])
      = encodeJson (.obj [("a", Json.str "x"), ("b", Json.num 1)]) :=
  C6_canonical_encoding [("b", Json.num 1), ("a", Json.str "x")]
    [("a", Json.str "x"), ("b", Json.num 1)]
    (List.Perm.swap ("a", Json.str "x") ("b", Json.num 1) [])
    (by simp)

/-- From src/aws_lambda_fsm/constants.py, class SYSTEM_CONTEXT. -/
def SYSTEM_CONTEXT_STARTED_AT : String := "started_at"

/-- From src/aws_lambda_fsm/constants.py, class SYSTEM_CONTEXT. -/
def SYSTEM_CONTEXT_MACHINE_NAME : String := "machine_name"

/-- From src/aws_lambda_fsm/constants.py, class SYSTEM_CONTEXT. -/
def SYSTEM_CONTEXT_CURRENT_STATE : String := "current_state"

/-- From src/aws_lambda_fsm/constants.py, class SYSTEM_CONTEXT. -/
def SYSTEM_CONTEXT_CURRENT_EVENT : String := "current_event"

/-- From src/aws_lambda_fsm/constants.py, class SYSTEM_CONTEXT. -/
def SYSTEM_CONTEXT_STEPS : String := "steps"

/-- From src/aws_lambda_fsm/constants.py, class SYSTEM_CONTEXT. -/
def SYSTEM_CONTEXT_RETRIES : String := "retries"

/-- From src/aws_lambda_fsm/constants.py, class SYSTEM_CONTEXT. -/
def SYSTEM_CONTEXT_CORRELATION_ID : String := "correlation_id"

/-- From src/aws_lambda_fsm/constants.py, class PAYLOAD. -/
def PAYLOAD_VERSION : String := "version"

/-- From src/aws_lambda_fsm/constants.py, class PAYLOAD. -/
def PAYLOAD_DEFAULT_VERSION : String := "0.1"

/-- From src/aws_lambda_fsm/constants.py, class PAYLOAD. -/
def PAYLOAD_SYSTEM_CONTEXT : String := "system_context"

/-- From src/aws_lambda_fsm/constants.py, class PAYLOAD. -/
def PAYLOAD_USER_CONTEXT : String := "user_context"

/-- From src/aws_lambda_fsm/constants.py, class STATE. -/
def STATE_PSEUDO_INIT : String := "pseudo_init"

/-- Lowercase hexadecimal digits. -/
def hexDigits : List Char := "0123456789abcdef".toList

/-- The hexadecimal digit of a value below 16. -/
def hexDigit (n : Nat) : Char := hexDigits.getD n 'x'

/-- Fixed-width big-endian hexadecimal rendering. -/
def toHexAux : Nat → Nat → List Char
  | 0, _ => []
  | d + 1, n => toHexAux d (n / 16) ++ [hexDigit (n % 16)]

/-- Model of `uuid.uuid4().hex`: the 32 lowercase hex digits of a 128-bit
value (`n` models the random draw). -/
def uuid4hex (n : Nat) : String := String.mk (toHexAux 32 (n % 2 ^ 128))

/-- Model of Python's `correlation_id or uuid.uuid4().hex` in `client.py`
line 35: a missing or falsy (empty-string) correlation id is replaced by a
freshly generated one. -/
def effective_correlation_id (supplied : Option String) (fresh : String) : String :=
  match supplied with
  | none => fresh
  | some s => if s = "" then fresh else s

/-- The `system_context` dict built by `start_state_machine` (client.py lines
36-44), in source insertion order. -/
def startSystemContext (machineName currentState currentEvent correlationId : String)
    (now : Int) : List (String × Json) :=
  [ (SYSTEM_CONTEXT_STARTED_AT, .num now),
    (SYSTEM_CONTEXT_MACHINE_NAME, .str machineName),
    (SYSTEM_CONTEXT_CURRENT_STATE, .str currentState),
    (SYSTEM_CONTEXT_CURRENT_EVENT, .str currentEvent),
    (SYSTEM_CONTEXT_STEPS, .num 0),
    (SYSTEM_CONTEXT_RETRIES, .num 0),
    (SYSTEM_CONTEXT_CORRELATION_ID, .str correlationId) ]

/-- The payload dict built by `start_state_machine` (client.py lines 45-49). -/
def startPayload (machineName currentState currentEvent correlationId : String)
    (now : Int) (userContext : List (String × Json)) : Json :=
  .obj [ (PAYLOAD_VERSION, .str PAYLOAD_DEFAULT_VERSION),
         (PAYLOAD_SYSTEM_CONTEXT, .obj (startSystemContext machineName currentState
            currentEvent correlationId now)),
         (PAYLOAD_USER_CONTEXT, .obj userContext) ]

/-- One dispatched kickoff record: the serialized data, the partition key and
the failover side.  `client.py` calls `send_next_event_for_dispatch` without
a `primary` argument; per the spec (6, Kickoff API) the kickoff goes to the
primary stream. -/
structure Dispatch where
  data : String
  correlation_id : String
  primary : Bool
deriving DecidableEq, Repr

/-- Model of `start_state_machine` in src/aws_lambda_fsm/client.py: resolve
the correlation id, build the system context and payload, serialize with
`json.dumps(payload, sort_keys=True)` and dispatch with the correlation id as
partition key.  `now` models `int(time.time())`; `fresh` models
`uuid.uuid4().hex`. -/
def start_state_machine (machineName : String) (initialContext : List (String × Json))
    (correlationId : Option String) (currentState currentEvent : String)
    (now : Int) (fresh : String) : Dispatch :=
  let cid := effective_correlation_id correlationId fresh
  { data := encodeJson (startPayload machineName currentState currentEvent cid now
      initialContext)
    correlation_id := cid
    primary := true }

/-- C5: a cold start with a supplied correlation id builds an envelope whose
`system_context` holds exactly
`{machine_name, current_state: pseudo_init, current_event: pseudo_init,
steps: 0, retries: 0, correlation_id, started_at: now}`, whose version is
`"0.1"` and whose `user_context` is the supplied initial context, and
dispatches its canonical encoding to the primary stream with the correlation
id as partition key. -/
theorem C5_cold_start (m cid : String) (uc : List (String × Json)) (now : Int)
    (fresh : String) (hcid : cid ≠ "") :
    ((startSystemContext m STATE_PSEUDO_INIT STATE_PSEUDO_INIT cid now).lookup
        SYSTEM_CONTEXT_MACHINE_NAME = some (Json.str m))
    ∧ ((startSystemContext m STATE_PSEUDO_INIT STATE_PSEUDO_INIT cid now).lookup
        SYSTEM_CONTEXT_CURRENT_STATE = some (Json.str STATE_PSEUDO_INIT))
    ∧ ((startSystemContext m STATE_PSEUDO_INIT STATE_PSEUDO_INIT cid now).lookup
        SYSTEM_CONTEXT_CURRENT_EVENT = some (Json.str STATE_PSEUDO_INIT))
    ∧ ((startSystemContext m STATE_PSEUDO_INIT STATE_PSEUDO_INIT cid now).lookup
        SYSTEM_CONTEXT_STEPS = some (Json.num 0))
    ∧ ((startSystemContext m STATE_PSEUDO_INIT STATE_PSEUDO_INIT cid now).lookup
        SYSTEM_CONTEXT_RETRIES = some (Json.num 0))
    ∧ ((startSystemContext m STATE_PSEUDO_INIT STATE_PSEUDO_INIT cid now).lookup
        SYSTEM_CONTEXT_CORRELATION_ID = some (Json.str cid))
    ∧ ((startSystemContext m STATE_PSEUDO_INIT STATE_PSEUDO_INIT cid now).lookup
        SYSTEM_CONTEXT_STARTED_AT = some (Json.num now))
    ∧ ((startSystemContext m STATE_PSEUDO_INIT STATE_PSEUDO_INIT cid now).map Prod.fst
        = [SYSTEM_CONTEXT_STARTED_AT, SYSTEM_CONTEXT_MACHINE_NAME,
           SYSTEM_CONTEXT_CURRENT_STATE, SYSTEM_CONTEXT_CURRENT_EVENT,
           SYSTEM_CONTEXT_STEPS, SYSTEM_CONTEXT_RETRIES, SYSTEM_CONTEXT_CORRELATION_ID])
    ∧ (startPayload m STATE_PSEUDO_INIT STATE_PSEUDO_INIT cid now uc
        = Json.obj [ (PAYLOAD_VERSION, Json.str PAYLOAD_DEFAULT_VERSION),
            (PAYLOAD_SYSTEM_CONTEXT,
              Json.obj (startSystemContext m STATE_PSEUDO_INIT STATE_PSEUDO_INIT cid now)),
            (PAYLOAD_USER_CONTEXT, Json.obj uc) ])
    ∧ (start_state_machine m uc (some cid) STATE_PSEUDO_INIT STATE_PSEUDO_INIT now fresh
        = { data := encodeJson (startPayload m STATE_PSEUDO_INIT STATE_PSEUDO_INIT cid now uc),
            correlation_id := cid,
            primary := true }) := by
  refine ⟨rfl, rfl, rfl, rfl, rfl, rfl, rfl, rfl, rfl, ?_⟩
  simp [start_state_machine, effective_correlation_id, hcid]

/-- Witness for C5 at a concrete input, scenario S1 of the spec. -/
theorem C5_cold_start_witness :
    start_state_machine ("m") [("x", Json.num 1)] (some ("cid1")) STATE_PSEUDO_INIT
        STATE_PSEUDO_INIT 1234 ("ffffffff") =
      { data := encodeJson (startPayload ("m") STATE_PSEUDO_INIT STATE_PSEUDO_INIT
          ("cid1") 1234 [("x", Json.num 1)]),
        correlation_id := "cid1",
        primary := true } :=
  (C5_cold_start ("m") ("cid1") [("x", Json.num 1)] 1234 ("ffffffff")
    (by decide)).2.2.2.2.2.2.2.2.2

theorem toHexAux_length (d n : Nat) : (toHexAux d n).length = d := by
  induction d generalizing n with
  | zero => rfl
  | succ d ih => simp [toHexAux, ih]

theorem toHexAux_mem {d n : Nat} {c : Char} (h : c ∈ toHexAux d n) : c ∈ hexDigits := by
  induction d generalizing n with
  | zero => simp [toHexAux] at h
  | succ d ih =>
    simp only [toHexAux, List.mem_append, List.mem_singleton] at h
    rcases h with h | h
    · exact ih h
    · subst h
      have hlt : n % 16 < 16 := Nat.mod_lt n (by omega)
      simp only [hexDigit, List.getD]
      cases hg : hexDigits.get? (n % 16) with
      | none =>
        exfalso
        rw [List.get?_eq_none] at hg
        have h16 : hexDigits.length = 16 := rfl
        rw [h16] at hg
        omega
      | some c2 =>
        simp only [Option.getD_some]
        exact List.get?_mem hg

theorem uuid4hex_length (n : Nat) : (uuid4hex n).length = 32 := by
  simp [uuid4hex, String.length, toHexAux_length]

theorem uuid4hex_hex (n : Nat) : ∀ c ∈ (uuid4hex n).toList, c ∈ hexDigits := by
  intro c hc
  exact toHexAux_mem hc

/-- C10: when `start_state_machine` is called with no correlation id (or a
falsy one), a fresh 32-character lowercase-hexadecimal id is generated and
that same id is used both inside the emitted `system_context` and as the
dispatch partition key; a supplied non-empty correlation id is used unchanged
in both places. -/
theorem C10_correlation_id_generation (m : String) (uc : List (String × Json))
    (cs ce : String) (now : Int) (n : Nat) (s : String) (hs : s ≠ "") :
    (effective_correlation_id none (uuid4hex n) = uuid4hex n)
    ∧ (effective_correlation_id (some "") (uuid4hex n) = uuid4hex n)
    ∧ (effective_correlation_id (some s) (uuid4hex n) = s)
    ∧ ((start_state_machine m uc none cs ce now (uuid4hex n)).correlation_id = uuid4hex n)
    ∧ ((startSystemContext m cs ce
          (effective_correlation_id none (uuid4hex n)) now).lookup
        SYSTEM_CONTEXT_CORRELATION_ID = some (Json.str (uuid4hex n)))
    ∧ ((start_state_machine m uc (some s) cs ce now (uuid4hex n)).correlation_id = s)
    ∧ ((startSystemContext m cs ce
          (effective_correlation_id (some s) (uuid4hex n)) now).lookup
        SYSTEM_CONTEXT_CORRELATION_ID = some (Json.str s))
    ∧ (uuid4hex n).length = 32
    ∧ (∀ c ∈ (uuid4hex n).toList, c ∈ hexDigits) := by
  have heff : effective_correlation_id (some s) (uuid4hex n) = s := by
    simp [effective_correlation_id, hs]
  refine ⟨rfl, rfl, heff, rfl, rfl, ?_, ?_, uuid4hex_length n, uuid4hex_hex n⟩
  · simp [start_state_machine, heff]
  · rw [heff]
    rfl

/-- Witness for C10 at a concrete input. -/
theorem C10_correlation_id_generation_witness :
    (start_state_machine ("m") [] (some ("cid1")) STATE_PSEUDO_INIT STATE_PSEUDO_INIT
        7 (uuid4hex 0)).correlation_id = "cid1"
    ∧ (uuid4hex 0).length = 32 := by
  have h := C10_correlation_id_generation ("m") [] STATE_PSEUDO_INIT STATE_PSEUDO_INIT
    7 0 ("cid1") (by decide)
  exact ⟨h.2.2.2.2.2.1, h.2.2.2.2.2.2.2.1⟩

/-- Split a character list at every colon (Python `s.split(':')`): always
returns at least one (possibly empty) field. -/
def splitColons : List Char → List (List Char)
  | [] => [[]]
  | c :: cs =>
    match splitColons cs with
    | [] => [[]]
    | f :: rest => if c = ':' then [] :: f :: rest else (c :: f) :: rest

/-- Join fields with colons (inverse of `splitColons`). -/
def joinColons : List (List Char) → List Char
  | [] => []
  | [f] => f
  | f :: rest => f ++ ':' :: joinColons rest

/-- Python `s.split(':', 5)`: at most five splits, the sixth field absorbing
any further colons. -/
def splitColonsMax5 (s : List Char) : List (List Char) :=
  let ps := splitColons s
  if ps.length ≤ 6 then ps else ps.take 5 ++ [joinColons (ps.drop 5)]

/-- A parsed ARN: six colon-separated fields, each absent when the input had
too few fields (spec 3 and 4.1; test_aws.py TestAws
test_get_arn_from_arn_string and variants). -/
structure Arn where
  arn : Option (List Char)
  partition : Option (List Char)
  service : Option (List Char)
  region_name : Option (List Char)
  account_id : Option (List Char)
  resource : Option (List Char)
deriving DecidableEq, Repr

/-- The six fields of a parsed ARN, in order. -/
def Arn.fields (a : Arn) : List (Option (List Char)) :=
  [a.arn, a.partition, a.service, a.region_name, a.account_id, a.resource]

/-- Pad a parsed field list with absent values up to the six ARN slots. -/
def padTo6 (ps : List (List Char)) : List (Option (List Char)) :=
  ps.map some ++ List.replicate (6 - ps.length) none

/-- Modelled from the spec (4.1, 6 ARN format): `get_arn_from_arn_string`
splits the input on at most five colons and fills the six ARN fields in
order, missing trailing fields (and a missing or empty input string) parsing
to absent values, never an error.  Cross-checked against test_aws.py:
`a:b:c:d:e:f:g:h` parses with resource `f:g:h`; `a:b:c` leaves the last
three fields absent; `None` and `''` leave every field absent. -/
def get_arn_from_arn_string (s : Option (List Char)) : Arn :=
  match s with
  | none => ⟨none, none, none, none, none, none⟩
  | some cs =>
    if cs = [] then ⟨none, none, none, none, none, none⟩
    else
      let fs := padTo6 (splitColonsMax5 cs)
      ⟨fs.getD 0 none, fs.getD 1 none, fs.getD 2 none,
       fs.getD 3 none, fs.getD 4 none, fs.getD 5 none⟩

/-- A field with no colon in it. -/
def colonFree (f : List Char) : Prop := ':' ∉ f

instance (f : List Char) : Decidable (colonFree f) :=
  inferInstanceAs (Decidable (':' ∉ f))

theorem splitColons_ne_nil (s : List Char) : splitColons s ≠ [] := by
  cases s with
  | nil => simp [splitColons]
  | cons c cs =>
    simp only [splitColons]
    cases h : splitColons cs with
    | nil => simp
    | cons f rest =>
      by_cases hc : c = ':' <;> simp [hc]

theorem joinColons_splitColons (s : List Char) : joinColons (splitColons s) = s := by
  induction s with
  | nil => rfl
  | cons c cs ih =>
    simp only [splitColons]
    cases h : splitColons cs with
    | nil => exact absurd h (splitColons_ne_nil cs)
    | cons f rest =>
      rw [h] at ih
      by_cases hc : c = ':'
      · subst hc
        simp only [if_true]
        cases rest with
        | nil => simp [joinColons] at ih ⊢; exact ih
        | cons g rest2 => simp [joinColons] at ih ⊢; exact ih
      · simp only [hc, if_false]
        cases rest with
        | nil => simp [joinColons] at ih ⊢; exact ih
        | cons g rest2 =>
          simp [joinColons] at ih ⊢
          exact ih

theorem splitColons_append_colon (f rest : List Char) (hf : colonFree f) :
    splitColons (f ++ ':' :: rest) = f :: splitColons rest := by
  induction f with
  | nil =>
    simp only [List.nil_append, splitColons]
    cases h : splitColons rest with
    | nil => exact absurd h (splitColons_ne_nil rest)
    | cons g rest2 => simp
  | cons c cs ih =>
    have hc : c ≠ ':' := by
      intro hcc
      exact hf (hcc ▸ List.mem_cons_self c cs)
    have hcs : colonFree cs := fun hm => hf (List.mem_cons_of_mem c hm)
    simp only [List.cons_append, splitColons, List.append_eq]
    rw [ih hcs]
    simp [hc]

theorem splitColons_colonFree {f : List Char} (hf : colonFree f) :
    splitColons f = [f] := by
  induction f with
  | nil => rfl
  | cons c cs ih =>
    have hc : c ≠ ':' := fun hcc => hf (hcc ▸ List.mem_cons_self c cs)
    have hcs : colonFree cs := fun hm => hf (List.mem_cons_of_mem c hm)
    simp only [splitColons, ih hcs]
    simp [hc]

theorem splitColons_join (fs : List (List Char)) (hne : fs ≠ [])
    (hcf : ∀ f ∈ fs, colonFree f) :
    splitColons (joinColons fs) = fs := by
  induction fs with
  | nil => contradiction
  | cons f rest ih =>
    cases rest with
    | nil =>
      show splitColons (joinColons [f]) = [f]
      have : joinColons [f] = f := rfl
      rw [this, splitColons_colonFree (hcf f (List.mem_cons_self f []))]
    | cons g rest2 =>
      have e1 : joinColons (f :: g :: rest2) = f ++ ':' :: joinColons (g :: rest2) := rfl
      rw [e1, splitColons_append_colon f _ (hcf f (List.mem_cons_self f _)),
        ih (by simp) (fun x hx => hcf x (List.mem_cons_of_mem f hx))]

theorem splitColonsMax5_join6 (f1 f2 f3 f4 f5 f6 : List Char)
    (h1 : colonFree f1) (h2 : colonFree f2) (h3 : colonFree f3)
    (h4 : colonFree f4) (h5 : colonFree f5) :
    splitColonsMax5 (joinColons [f1, f2, f3, f4, f5, f6]) = [f1, f2, f3, f4, f5, f6] := by
  have hsplit : splitColons (joinColons [f1, f2, f3, f4, f5, f6])
      = f1 :: f2 :: f3 :: f4 :: f5 :: splitColons f6 := by
    have e1 : joinColons [f1, f2, f3, f4, f5, f6]
        = f1 ++ ':' :: (f2 ++ ':' :: (f3 ++ ':' :: (f4 ++ ':' :: (f5 ++ ':' :: f6)))) := rfl
    rw [e1, splitColons_append_colon _ _ h1, splitColons_append_colon _ _ h2,
      splitColons_append_colon _ _ h3, splitColons_append_colon _ _ h4,
      splitColons_append_colon _ _ h5]
  simp only [splitColonsMax5, hsplit]
  cases hk : splitColons f6 with
  | nil => exact absurd hk (splitColons_ne_nil f6)
  | cons g rest =>
    have hj : joinColons (g :: rest) = f6 := by
      have h := joinColons_splitColons f6
      rw [hk] at h
      exact h
    cases rest with
    | nil =>
      have hg : g = f6 := hj
      simp [hg]
    | cons g2 rest2 =>
      have hlen : (f1 :: f2 :: f3 :: f4 :: f5 :: g :: g2 :: rest2).length ≤ 6 ↔ False := by
        simp
      rw [if_neg (by simp)]
      simp only [List.take, List.drop]
      rw [hj]
      rfl

theorem joinColons_cons_ne_nil (f1 : List Char) (f2 : List Char) (rest : List (List Char)) :
    joinColons (f1 :: f2 :: rest) ≠ [] := by
  have e1 : joinColons (f1 :: f2 :: rest) = f1 ++ ':' :: joinColons (f2 :: rest) := rfl
  rw [e1]
  cases f1 <;> simp

theorem getD_six (l : List (Option (List Char))) (hl : l.length = 6) :
    [l.getD 0 none, l.getD 1 none, l.getD 2 none, l.getD 3 none,
     l.getD 4 none, l.getD 5 none] = l := by
  rcases l with _ | ⟨a, l⟩
  · simp at hl
  rcases l with _ | ⟨b, l⟩
  · simp at hl
  rcases l with _ | ⟨c, l⟩
  · simp at hl
  rcases l with _ | ⟨d, l⟩
  · simp at hl
  rcases l with _ | ⟨e, l⟩
  · simp at hl
  rcases l with _ | ⟨f, l⟩
  · simp at hl
  rcases l with _ | ⟨g, l⟩
  · rfl
  · simp at hl

theorem padTo6_length (ps : List (List Char)) (hps : ps.length ≤ 6) :
    (padTo6 ps).length = 6 := by
  simp [padTo6]
  omega

/-- C7: ARN parsing is total.  For every input with six colon-separated
fields (the first five colon-free, the sixth absorbing any further colons)
the parser recovers all six fields; for every shorter field list the present
fields are recovered and the missing trailing fields parse to absent; a
missing or empty input string parses to the all-absent ARN.  No input is an
error: `get_arn_from_arn_string` is a total function. -/
theorem C7_arn_parsing_total :
    (∀ f1 f2 f3 f4 f5 f6 : List Char, colonFree f1 → colonFree f2 → colonFree f3 →
      colonFree f4 → colonFree f5 →
      get_arn_from_arn_string (some (joinColons [f1, f2, f3, f4, f5, f6]))
        = ⟨some f1, some f2, some f3, some f4, some f5, some f6⟩)
    ∧ (∀ fs : List (List Char), fs ≠ [] → fs.length ≤ 5 → (∀ f ∈ fs, colonFree f) →
      joinColons fs ≠ [] →
      (get_arn_from_arn_string (some (joinColons fs))).fields
        = fs.map some ++ List.replicate (6 - fs.length) none)
    ∧ get_arn_from_arn_string none = ⟨none, none, none, none, none, none⟩
    ∧ get_arn_from_arn_string (some []) = ⟨none, none, none, none, none, none⟩ := by
  refine ⟨?_, ?_, rfl, rfl⟩
  · intro f1 f2 f3 f4 f5 f6 h1 h2 h3 h4 h5
    have hne : joinColons [f1, f2, f3, f4, f5, f6] ≠ [] := joinColons_cons_ne_nil _ _ _
    simp only [get_arn_from_arn_string, if_neg hne,
      splitColonsMax5_join6 f1 f2 f3 f4 f5 f6 h1 h2 h3 h4 h5]
    rfl
  · intro fs hne hlen hcf hjne
    have hsp : splitColons (joinColons fs) = fs := splitColons_join fs hne hcf
    have hmax : splitColonsMax5 (joinColons fs) = fs := by
      simp only [splitColonsMax5, hsp]
      rw [if_pos (by omega)]
    simp only [get_arn_from_arn_string, if_neg hjne, hmax]
    have hp6 : (padTo6 fs).length = 6 := padTo6_length fs (by omega)
    show [(padTo6 fs).getD 0 none, (padTo6 fs).getD 1 none, (padTo6 fs).getD 2 none,
      (padTo6 fs).getD 3 none, (padTo6 fs).getD 4 none, (padTo6 fs).getD 5 none]
        = fs.map some ++ List.replicate (6 - fs.length) none
    rw [getD_six (padTo6 fs) hp6]
    rfl

/-- Witness for C7 at concrete inputs: the repository's own test strings
`a:b:c:d:e:f:g:h` (six fields, resource absorbing the extra colons) and
`a:b:c` (three fields, three absent). -/
theorem C7_arn_parsing_total_witness :
    get_arn_from_arn_string
        (some (joinColons [['a'], ['b'], ['c'], ['d'], ['e'], ['f', ':', 'g', ':', 'h']]))
      = ⟨some ['a'], some ['b'], some ['c'], some ['d'], some ['e'],
          some ['f', ':', 'g', ':', 'h']⟩
    ∧ (get_arn_from_arn_string (some (joinColons [['a'], ['b'], ['c']]))).fields
      = [some ['a'], some ['b'], some ['c'], none, none, none] := by
  constructor
  · exact C7_arn_parsing_total.1 ['a'] ['b'] ['c'] ['d'] ['e'] ['f', ':', 'g', ':', 'h']
      (by decide) (by decide) (by decide) (by decide) (by decide)
  · have h := C7_arn_parsing_total.2.1 [['a'], ['b'], ['c']] (by decide) (by decide)
      (by decide) (by decide)
    rw [h]
    rfl

/-- A configured chaos outcome: raise an exception or return a fixed value
(spec 4.2; test_aws.py chaos config `{Exception(): p}` / `{'zap': p}`). -/
inductive ChaosOutcome where
  | exn (tag : Nat)
  | value (v : String)
deriving DecidableEq, Repr

/-- One configured chaos rule: an outcome and its probability. -/
structure ChaosRule where
  outcome : ChaosOutcome
  percentage : ℚ
deriving DecidableEq

/-- The observable result of a wrapped method call. -/
inductive CallResult where
  | raised (tag : Nat)
  | returned (v : String)
deriving DecidableEq, Repr

/-- One call through the chaos wrapper: the result handed to the caller and
whether the underlying method of the real client was invoked. -/
structure ChaosCall where
  result : CallResult
  realCalled : Bool
deriving DecidableEq, Repr

/-- The result produced by a firing chaos rule. -/
def chaos_function (o : ChaosOutcome) : CallResult :=
  match o with
  | .exn t => .raised t
  | .value v => .returned v

/-- A rule fires when the uniform draw is strictly below its probability. -/
def rule_fires (coin : ℚ) (r : ChaosRule) : Bool := decide (coin < r.percentage)

/-- Modelled from the spec (4.2) and the repository's chaos tests: a wrapped
method call draws `coin` uniformly from `[0,1)` and scans the configured
rules; the first rule with `coin < percentage` fires, producing its outcome
in place of the real result — but, per test_chaos_run_function (coin 0.1,
probability 1.0, real method called) versus test_chaos_dont_run_function
(coin 0.9, real method not called), the underlying method is still invoked,
its result discarded, when the draw is additionally below half the firing
probability.  When no rule fires the real call is made and its result
returned unchanged. -/
def chaos_wrapped (rules : List ChaosRule) (coin : ℚ) (realResult : String) : ChaosCall :=
  match rules.find? (rule_fires coin) with
  | some r =>
    { result := chaos_function r.outcome
      realCalled := decide (coin < r.percentage / 2) }
  | none => { result := .returned realResult, realCalled := true }

/-- Modelled from the spec (4.2): a `ChaosConnection` keeps only the rules
configured for the connection's service (test_chaos_0: rules for `dynamodb`
never touch a `kinesis` connection). -/
def chaos_connection_call (chaos : List (String × List ChaosRule)) (service : String)
    (coin : ℚ) (realResult : String) : ChaosCall :=
  chaos_wrapped ((chaos.lookup service).getD []) coin realResult

theorem find?_first {α : Type} (p : α → Bool) :
    ∀ (pre : List α) (r : α) (post : List α), (∀ x ∈ pre, p x = false) → p r = true →
      (pre ++ r :: post).find? p = some r := by
  intro pre
  induction pre with
  | nil =>
    intro r post _ hr
    simp [List.find?, hr]
  | cons a pre ih =>
    intro r post hpre hr
    have ha : p a = false := hpre a (List.mem_cons_self a pre)
    simp only [List.cons_append, List.find?, ha]
    exact ih r post (fun x hx => hpre x (List.mem_cons_of_mem a hx)) hr

/-- C8 counterexample: with the rule `('zap', 1.0)` for the connection's own
service and the draw `0.1`, the rule fires (`0.1 < 1`), the wrapper returns
the configured value — and the underlying method IS called, exactly as the
repository's test test_chaos_run_function asserts, contradicting the claim
that the configured outcome is produced *instead of* calling the underlying
method. -/
theorem C8_counterexample :
    ((1 : ℚ) / 10 < 1)
    ∧ (chaos_connection_call [("kinesis", [⟨.value "zap", 1⟩])] ("kinesis")
        ((1 : ℚ) / 10) ("real")).result = .returned "zap"
    ∧ (chaos_connection_call [("kinesis", [⟨.value "zap", 1⟩])] ("kinesis")
        ((1 : ℚ) / 10) ("real")).realCalled = true := by
  have hlt : ((10 : ℚ))⁻¹ < 1 := by norm_num
  have hhalf : ((10 : ℚ))⁻¹ < 1 / 2 := by norm_num
  refine ⟨by norm_num, ?_, ?_⟩ <;>
    simp [chaos_connection_call, chaos_wrapped, List.lookup, List.find?, rule_fires,
      chaos_function, hlt, hhalf] <;> norm_num

/-- C8 (amended): for every call through a `ChaosConnection`, when the first
configured rule matching the connection's service with draw strictly below
its probability fires, the wrapper raises the configured exception or returns
the configured value in place of the real result — while the underlying
method is nonetheless still invoked (its result discarded) exactly when the
draw is also strictly below half that probability; when no matching rule
fires (including when no rule is configured for the service), the real call
is always made and its result returned unchanged. -/
theorem C8_chaos_contract (chaos : List (String × List ChaosRule)) (service : String)
    (coin : ℚ) (realResult : String) :
    ((∀ r ∈ (chaos.lookup service).getD [], ¬ coin < r.percentage) →
      chaos_connection_call chaos service coin realResult
        = { result := .returned realResult, realCalled := true })
    ∧ (chaos.lookup service = none →
      chaos_connection_call chaos service coin realResult
        = { result := .returned realResult, realCalled := true })
    ∧ (∀ pre r post, (chaos.lookup service).getD [] = pre ++ r :: post →
      (∀ p ∈ pre, ¬ coin < p.percentage) → coin < r.percentage →
      (chaos_connection_call chaos service coin realResult).result = chaos_function r.outcome
        ∧ ((chaos_connection_call chaos service coin realResult).realCalled = true
            ↔ coin < r.percentage / 2)) := by
  refine ⟨?_, ?_, ?_⟩
  · intro hall
    have hnone : ((chaos.lookup service).getD []).find? (rule_fires coin) = none := by
      rw [List.find?_eq_none]
      intro x hx
      simp [rule_fires]
      exact not_lt.1 (hall x hx)
    simp [chaos_connection_call, chaos_wrapped, hnone]
  · intro hnone
    simp [chaos_connection_call, chaos_wrapped, hnone, List.find?]
  · intro pre r post heq hpre hr
    have hfind : ((chaos.lookup service).getD []).find? (rule_fires coin) = some r := by
      rw [heq]
      refine find?_first (rule_fires coin) pre r post ?_ ?_
      · intro x hx
        simp [rule_fires]
        exact not_lt.1 (hpre x hx)
      · simp [rule_fires]
        exact hr
    constructor
    · simp [chaos_connection_call, chaos_wrapped, hfind]
    · simp [chaos_connection_call, chaos_wrapped, hfind]

/-- Witness for C8 (amended) at concrete inputs: a draw of 0.9 against
probability 1.0 fires the rule without invoking the underlying method, and a
`dynamodb`-only configuration leaves a `kinesis` connection untouched. -/
theorem C8_chaos_contract_witness :
    ((chaos_connection_call [("kinesis", [⟨.value "zap", 1⟩])] ("kinesis")
        ((9 : ℚ) / 10) ("real")).result = .returned "zap"
      ∧ ((chaos_connection_call [("kinesis", [⟨.value "zap", 1⟩])] ("kinesis")
          ((9 : ℚ) / 10) ("real")).realCalled = true ↔ (9 : ℚ) / 10 < 1 / 2))
    ∧ chaos_connection_call [("dynamodb", [⟨.value "zap", 1⟩])] ("kinesis")
        ((1 : ℚ) / 10) ("real")
      = { result := .returned "real", realCalled := true } := by
  constructor
  · have h := (C8_chaos_contract [("kinesis", [⟨.value "zap", 1⟩])] ("kinesis")
      ((9 : ℚ) / 10) ("real")).2.2 [] ⟨.value "zap", 1⟩ [] rfl (by simp) (by norm_num)
    exact h
  · exact (C8_chaos_contract [("dynamodb", [⟨.value "zap", 1⟩])] ("kinesis")
      ((1 : ℚ) / 10) ("real")).2.1 rfl

/-- Modelled from the spec (3, IdempotencyRecord; 4.6): `set_message_dispatched`
stores, under `correlation_id + "-" + steps`, the value
`correlation_id + "-" + steps + "-" + retries` (test_aws.py
test_set_message_dispatched_memcache asserts `set('a-b', 'a-b-c')`).  The
cache is the association list of its bindings, most recent first. -/
def set_message_dispatched (cache : List (String × String)) (cid steps retries : String) :
    List (String × String) :=
  (cid ++ "-" ++ steps, cid ++ "-" ++ steps ++ "-" ++ retries) :: cache

/-- Modelled from the spec (4.6): `get_message_dispatched` reads the value
stored under `correlation_id + "-" + steps` (test_aws.py
test_get_message_dispatched_memcache asserts `get('a-b')`). -/
def get_message_dispatched (cache : List (String × String)) (cid steps : String) :
    Option String :=
  cache.lookup (cid ++ "-" ++ steps)

/-- C9: `set_message_dispatched` writes the idempotency record under the key
`correlation_id + "-" + steps` with value
`correlation_id + "-" + steps + "-" + retries`, and `get_message_dispatched`
reads back exactly the value stored under `correlation_id + "-" + steps` —
while every other key is untouched. -/
theorem C9_idempotency_record (cache : List (String × String)) (cid steps retries : String) :
    (get_message_dispatched (set_message_dispatched cache cid steps retries) cid steps
      = some (cid ++ "-" ++ steps ++ "-" ++ retries))
    ∧ (∀ k, k ≠ cid ++ "-" ++ steps →
        (set_message_dispatched cache cid steps retries).lookup k = cache.lookup k) := by
  constructor
  · simp [get_message_dispatched, set_message_dispatched, List.lookup]
  · intro k hk
    have hb : (k == cid ++ "-" ++ steps) = false := beq_eq_false_iff_ne.mpr hk
    simp [set_message_dispatched, List.lookup, hb]

/-- Witness for C9 at the repository's own test input `('a', 'b', 'c')`. -/
theorem C9_idempotency_record_witness :
    get_message_dispatched (set_message_dispatched [] ("a") ("b") ("c")) ("a") ("b")
      = some "a-b-c"
    ∧ (set_message_dispatched [] ("a") ("b") ("c")).lookup ("z") = ([] : List (String × String)).lookup ("z") := by
  constructor
  · exact (C9_idempotency_record [] ("a") ("b") ("c")).1
  · exact (C9_idempotency_record [] ("a") ("b") ("c")).2 ("z") (by decide)

end AwsLambdaFsm
